import Mathlib

/-!
# Verification of the Post-Deletor broadcast/retraction core (src/bot.py)

Shallow embedding of the SQLite-backed broadcast bot:

* the database (`DB`) holds the `channels` table (a `channel_id` primary-key
  column, modelled as a duplicate-free list in insertion order) and the
  `broadcasts` table (rows in rowid / insertion order);
* `register_forward` embeds the `INSERT OR IGNORE INTO channels` write;
* `broadcast_cmd` embeds the `/broadcast` handler: it derives
  `batch_id = str(int(time.time()))`, iterates the registered channels, and
  for each one runs `copy_message` followed by the member `INSERT` inside a
  single `try`, counting any exception as one failure;
* `delete_cmd` embeds the `/delete` handler: it resolves a batch via
  `fetchone()` on `SELECT batch_id ... WHERE private_chat_id = ? AND
  private_message_id = ?` (no ORDER BY, so the first row in rowid order),
  fetches all rows with that `batch_id`, and attempts `delete_message` on
  each, counting successes and exceptions; it performs no database write.

External effects are oracles: `copy : Int → Option Int` gives the remote
message id of a successful `copy_message` (or `none` for a raised transport
error), `insertOk : Int → Bool` tells whether the member-row `INSERT` for
that channel raises, and `del : Int → Int → Bool` tells whether
`delete_message` succeeds on a (channel, message id) pair.
-/

/-- One row of the `broadcasts` table
(`batch_id, private_chat_id, private_message_id, channel_id, channel_message_id`). -/
structure BroadcastRow where
  batch_id : String
  private_chat_id : Int
  private_message_id : Int
  channel_id : Int
  channel_message_id : Int
  deriving DecidableEq, Repr

/-- The bot database: the `channels` table (primary-key column, so
duplicate-free, kept in insertion order) and the `broadcasts` table
(rows in rowid order). -/
structure DB where
  channels : List Int
  broadcasts : List BroadcastRow
  deriving DecidableEq, Repr

/-- `init_db`: both tables start empty. -/
def init_db : DB := ⟨[], []⟩

/-- `register_forward` core effect:
`INSERT OR IGNORE INTO channels (channel_id) VALUES (?)` — a duplicate
`channel_id` is ignored by the primary-key constraint, a fresh one is
appended. -/
def register_forward (db : DB) (cid : Int) : DB :=
  if cid ∈ db.channels then db else { db with channels := db.channels ++ [cid] }

/-- The summary `/broadcast` reports: `successes`, `failures`, and
`len(channels)`. -/
structure BroadcastSummary where
  successes : Nat
  failures : Nat
  total : Nat
  deriving DecidableEq, Repr

/-- `batch_id = str(int(time.time()))` — the decimal string of the
wall-clock second `t` at which the call runs. -/
def mkBatchId (t : Nat) : String := toString t

/-- The `for ch in channels` loop of `broadcast_cmd`: for each channel, the
`try` block runs `copy_message` and then the member `INSERT`; if both succeed
the row is recorded and `successes` incremented, if either raises the
exception is caught and `failures` incremented.  Returns
(successes, failures, rows inserted in order). -/
def broadcastLoop (copy : Int → Option Int) (insertOk : Int → Bool)
    (bid : String) (pcid pmid : Int) :
    List Int → Nat × Nat × List BroadcastRow
  | [] => (0, 0, [])
  | ch :: rest =>
    let r := broadcastLoop copy insertOk bid pcid pmid rest
    match copy ch with
    | some mid =>
      if insertOk ch then
        (r.1 + 1, r.2.1, ⟨bid, pcid, pmid, ch, mid⟩ :: r.2.2)
      else
        (r.1, r.2.1 + 1, r.2.2)
    | none => (r.1, r.2.1 + 1, r.2.2)

/-- `broadcast_cmd` core: allocate `batch_id` from the current second `t`,
read the channel list, run the fan-out loop, commit the inserted rows, and
report the summary.  `pcid` is `update.effective_chat.id`, `pmid` is
`orig.message_id`.  Returns (new database, summary, allocated batch id). -/
def broadcast_cmd (copy : Int → Option Int) (insertOk : Int → Bool)
    (t : Nat) (pcid pmid : Int) (db : DB) : DB × BroadcastSummary × String :=
  let bid := mkBatchId t
  let r := broadcastLoop copy insertOk bid pcid pmid db.channels
  ({ db with broadcasts := db.broadcasts ++ r.2.2 },
   ⟨r.1, r.2.1, db.channels.length⟩, bid)

/-- The `WHERE private_chat_id = ? AND private_message_id = ?` predicate of
the batch lookup in `delete_cmd`. -/
def originMatches (pcid pmid : Int) (r : BroadcastRow) : Bool :=
  r.private_chat_id == pcid && r.private_message_id == pmid

/-- The batch lookup of `delete_cmd`: `SELECT batch_id FROM broadcasts WHERE
private_chat_id = ? AND private_message_id = ?` followed by `fetchone()` —
with no ORDER BY, SQLite scans the table in rowid (insertion) order, so this
is the first matching row. -/
def find_batch_by_origin (db : DB) (pcid pmid : Int) : Option String :=
  ((db.broadcasts.filter (originMatches pcid pmid)).head?).map (·.batch_id)

/-- The member fetch of `delete_cmd`: `SELECT channel_id, channel_message_id
FROM broadcasts WHERE batch_id = ?` in rowid order. -/
def list_members (db : DB) (bid : String) : List (Int × Int) :=
  (db.broadcasts.filter (fun r => r.batch_id == bid)).map
    (fun r => (r.channel_id, r.channel_message_id))

/-- Outcome of `/delete`: either the "No record found" reply, or the
summary (deleted, not found, total in batch). -/
inductive RetractResult where
  | notFound : RetractResult
  | done (deleted not_found total : Nat) : RetractResult
  deriving DecidableEq, Repr

/-- The `for ch, msg_id in entries` loop of `delete_cmd`: each entry gets one
`delete_message` attempt; success increments `deleted`, an exception
increments `not_found`. -/
def deleteLoop (del : Int → Int → Bool) : List (Int × Int) → Nat × Nat
  | [] => (0, 0)
  | e :: rest =>
    let r := deleteLoop del rest
    if del e.1 e.2 then (r.1 + 1, r.2) else (r.1, r.2 + 1)

/-- `delete_cmd` core: resolve the batch by origin (replying "No record
found" when absent), fetch its entries, attempt `delete_message` on each.
The handler never writes the database, so the store is returned unchanged.
Returns (database, outcome, the list of (channel, message id) delete
targets actually attempted). -/
def delete_cmd (del : Int → Int → Bool) (pcid pmid : Int) (db : DB) :
    DB × RetractResult × List (Int × Int) :=
  match find_batch_by_origin db pcid pmid with
  | none => (db, RetractResult.notFound, [])
  | some bid =>
    let entries := list_members db bid
    let r := deleteLoop del entries
    (db, RetractResult.done r.1 r.2 entries.length, entries)

/-! ## Concrete scenarios used by counterexamples and witnesses -/

/-- Transport copy oracle: `copy_message` succeeds on channel 1 (remote
message id 100) and raises on every other channel. -/
def copyA : Int → Option Int := fun ch => if ch == 1 then some 100 else none

/-- Member-row `INSERT` oracle: every insert succeeds. -/
def insT : Int → Bool := fun _ => true

/-- Member-row `INSERT` oracle: every insert raises (the database cannot be
written during the fan-out loop). -/
def insF : Int → Bool := fun _ => false

/-- `delete_message` oracle: every delete succeeds. -/
def delT : Int → Int → Bool := fun _ _ => true

/-- `delete_message` oracle: every delete raises (targets already gone). -/
def delF : Int → Int → Bool := fun _ _ => false

/-- Registry with channels 1 and 2 registered. -/
def dbReg : DB := register_forward (register_forward init_db 1) 2

/-- Registry with only channel 1 registered. -/
def dbOne : DB := register_forward init_db 1

/-- Store after broadcasting origin message (10, 20) at second 5 to `dbReg`:
channel 1 received remote message 100, channel 2 failed. -/
def dbA : DB := (broadcast_cmd copyA insT 5 10 20 dbReg).1

/-- Store after a first broadcast of origin message (10, 20) at second 1 to
`dbOne`. -/
def dbB : DB := (broadcast_cmd copyA insT 1 10 20 dbOne).1

/-- Store after re-broadcasting the same origin message (10, 20) at
second 2: two batches now exist for the same origin pair. -/
def dbC : DB := (broadcast_cmd copyA insT 2 10 20 dbB).1

/-! ## Helper lemmas about the fan-out and retraction loops -/

theorem broadcastLoop_success_failure (copy : Int → Option Int)
    (insertOk : Int → Bool) (bid : String) (pcid pmid : Int)
    (chs : List Int) :
    (broadcastLoop copy insertOk bid pcid pmid chs).1
      + (broadcastLoop copy insertOk bid pcid pmid chs).2.1 = chs.length := by
  induction chs with
  | nil => rfl
  | cons ch rest ih =>
    cases hc : copy ch with
    | none => simp [broadcastLoop, hc]; omega
    | some mid =>
      by_cases hi : insertOk ch = true
      · simp [broadcastLoop, hc, hi]; omega
      · simp [broadcastLoop, hc, hi]; omega

theorem broadcastLoop_rows_length (copy : Int → Option Int)
    (insertOk : Int → Bool) (bid : String) (pcid pmid : Int)
    (chs : List Int) :
    (broadcastLoop copy insertOk bid pcid pmid chs).2.2.length
      = (broadcastLoop copy insertOk bid pcid pmid chs).1 := by
  induction chs with
  | nil => rfl
  | cons ch rest ih =>
    cases hc : copy ch with
    | none => simpa [broadcastLoop, hc] using ih
    | some mid =>
      by_cases hi : insertOk ch = true
      · simp [broadcastLoop, hc, hi]; omega
      · simpa [broadcastLoop, hc, hi] using ih

theorem broadcastLoop_rows (copy : Int → Option Int) (insertOk : Int → Bool)
    (bid : String) (pcid pmid : Int) (chs : List Int) :
    ∀ r ∈ (broadcastLoop copy insertOk bid pcid pmid chs).2.2,
      r.batch_id = bid ∧ r.private_chat_id = pcid ∧
      r.private_message_id = pmid ∧
      copy r.channel_id = some r.channel_message_id ∧
      insertOk r.channel_id = true := by
  induction chs with
  | nil => intro r hr; simp [broadcastLoop] at hr
  | cons ch rest ih =>
    intro r hr
    cases hc : copy ch with
    | none =>
      simp only [broadcastLoop, hc] at hr
      exact ih r hr
    | some mid =>
      by_cases hi : insertOk ch = true
      · simp only [broadcastLoop, hc, hi, if_true] at hr
        rcases List.mem_cons.mp hr with h | h
        · subst h
          exact ⟨rfl, rfl, rfl, hc, hi⟩
        · exact ih r h
      · simp only [broadcastLoop, hc, if_neg hi] at hr
        exact ih r hr

theorem broadcastLoop_failures (copy : Int → Option Int)
    (insertOk : Int → Bool) (bid : String) (pcid pmid : Int)
    (chs : List Int) :
    (broadcastLoop copy insertOk bid pcid pmid chs).2.1
      = (chs.filter (fun ch => (copy ch).isNone || !insertOk ch)).length := by
  induction chs with
  | nil => rfl
  | cons ch rest ih =>
    cases hc : copy ch with
    | none => simp [broadcastLoop, hc, List.filter_cons, ih]
    | some mid =>
      by_cases hi : insertOk ch = true
      · simp [broadcastLoop, hc, hi, List.filter_cons, ih]
      · simp [broadcastLoop, hc, hi, List.filter_cons, ih]

theorem broadcastLoop_successes (copy : Int → Option Int)
    (insertOk : Int → Bool) (bid : String) (pcid pmid : Int)
    (chs : List Int) :
    (broadcastLoop copy insertOk bid pcid pmid chs).1
      = (chs.filter (fun ch => (copy ch).isSome && insertOk ch)).length := by
  induction chs with
  | nil => rfl
  | cons ch rest ih =>
    cases hc : copy ch with
    | none => simp [broadcastLoop, hc, List.filter_cons, ih]
    | some mid =>
      by_cases hi : insertOk ch = true
      · simp [broadcastLoop, hc, hi, List.filter_cons, ih]
      · simp [broadcastLoop, hc, hi, List.filter_cons, ih]

theorem deleteLoop_total (del : Int → Int → Bool) (l : List (Int × Int)) :
    (deleteLoop del l).1 + (deleteLoop del l).2 = l.length := by
  induction l with
  | nil => rfl
  | cons e rest ih =>
    by_cases hd : del e.1 e.2 = true
    · simp [deleteLoop, hd]; omega
    · simp [deleteLoop, hd]; omega

theorem broadcastLoop_filter_batch (copy : Int → Option Int)
    (insertOk : Int → Bool) (bid : String) (pcid pmid : Int)
    (chs : List Int) :
    ((broadcastLoop copy insertOk bid pcid pmid chs).2.2).filter
        (fun r => r.batch_id == bid)
      = (broadcastLoop copy insertOk bid pcid pmid chs).2.2 := by
  apply List.filter_eq_self.mpr
  intro r hr
  have h := broadcastLoop_rows copy insertOk bid pcid pmid chs r hr
  simp [h.1]

theorem broadcastLoop_filter_origin (copy : Int → Option Int)
    (insertOk : Int → Bool) (bid : String) (pcid pmid : Int)
    (chs : List Int) :
    ((broadcastLoop copy insertOk bid pcid pmid chs).2.2).filter
        (originMatches pcid pmid)
      = (broadcastLoop copy insertOk bid pcid pmid chs).2.2 := by
  apply List.filter_eq_self.mpr
  intro r hr
  have h := broadcastLoop_rows copy insertOk bid pcid pmid chs r hr
  simp [originMatches, h.2.1, h.2.2.1]

theorem find_batch_by_origin_broadcast (copy : Int → Option Int)
    (insertOk : Int → Bool) (t : Nat) (pcid pmid : Int) (db : DB)
    (hor : ∀ r ∈ db.broadcasts, originMatches pcid pmid r = false) :
    find_batch_by_origin (broadcast_cmd copy insertOk t pcid pmid db).1 pcid pmid
      = ((broadcastLoop copy insertOk (mkBatchId t) pcid pmid
            db.channels).2.2.head?).map (fun r => r.batch_id) := by
  unfold find_batch_by_origin broadcast_cmd
  simp only [List.filter_append]
  rw [List.filter_eq_nil_iff.mpr (fun r hr => by simp [hor r hr])]
  rw [broadcastLoop_filter_origin]
  simp

theorem list_members_broadcast (copy : Int → Option Int)
    (insertOk : Int → Bool) (t : Nat) (pcid pmid : Int) (db : DB)
    (hb : ∀ r ∈ db.broadcasts, r.batch_id ≠ mkBatchId t) :
    list_members (broadcast_cmd copy insertOk t pcid pmid db).1 (mkBatchId t)
      = ((broadcastLoop copy insertOk (mkBatchId t) pcid pmid
            db.channels).2.2).map (fun r => (r.channel_id, r.channel_message_id)) := by
  unfold list_members broadcast_cmd
  simp only [List.filter_append]
  rw [List.filter_eq_nil_iff.mpr (fun r hr => by simp [hb r hr])]
  rw [broadcastLoop_filter_batch]
  simp

theorem register_forward_mem_self (db : DB) (cid : Int) :
    cid ∈ (register_forward db cid).channels := by
  unfold register_forward
  by_cases hc : cid ∈ db.channels
  · simp [hc]
  · simp [hc]

theorem register_forward_of_mem (db : DB) (cid : Int)
    (h : cid ∈ db.channels) : register_forward db cid = db := by
  unfold register_forward
  rw [if_pos h]

theorem register_forward_of_not_mem (db : DB) (cid : Int)
    (h : cid ∉ db.channels) :
    (register_forward db cid).channels = db.channels ++ [cid] := by
  unfold register_forward
  rw [if_neg h]

/-! ## Claims -/

/-- C2 counterexample: two distinct broadcast calls made within the same
wall-clock second (the second call runs on the store produced by the first,
with a different origin message) are allocated equal — not different —
batch ids, both `"5"`. -/
theorem C2_counterexample :
    (broadcast_cmd copyA insT 5 30 40 dbA).2.2
        = (broadcast_cmd copyA insT 5 10 20 dbReg).2.2 ∧
    (broadcast_cmd copyA insT 5 30 40 dbA).2.2 = "5" := by decide

/-- C2 (amended): the allocated batch id is exactly the decimal string of
the wall-clock second of the call, so any two broadcast calls running in
the same second — whatever their store, origin, or transport outcomes —
receive identical batch ids.  Identity is not globally unique; it has
exactly wall-clock-second resolution. -/
theorem C2_batch_id_is_wall_clock_second (copy copy2 : Int → Option Int)
    (insertOk insertOk2 : Int → Bool) (t : Nat)
    (pcid pmid pcid2 pmid2 : Int) (db db2 : DB) :
    (broadcast_cmd copy insertOk t pcid pmid db).2.2 = mkBatchId t ∧
    (broadcast_cmd copy2 insertOk2 t pcid2 pmid2 db2).2.2
      = (broadcast_cmd copy insertOk t pcid pmid db).2.2 :=
  ⟨rfl, rfl⟩

/-- C4 counterexample: on a registry holding only channel 1, with the
transport copy succeeding (remote id 100) but the member-row INSERT
raising, the broadcast call does not fail with a store error: it completes
and reports the store-write failure as an ordinary per-destination failure
(summary 0 successes / 1 failure / 1 total), recording no row. -/
theorem C4_counterexample :
    copyA 1 = some 100 ∧
    (broadcast_cmd copyA insF 5 10 20 dbOne).2.1
        = BroadcastSummary.mk 0 1 1 ∧
    (broadcast_cmd copyA insF 5 10 20 dbOne).1.broadcasts = [] := by decide

/-- C4 (amended): the `try` block of the fan-out loop wraps both the
transport copy and the member-row INSERT, so per-destination transport
errors AND per-member store-write errors alike are swallowed into the
aggregate failure counter: the failure count is exactly the number of
channels whose copy raised or whose insert raised, the success count is
the number of channels where both succeeded, and the call always returns
a summary.  (Only failures outside the loop — opening the connection,
reading the channel list, the final commit — would propagate.) -/
theorem C4_store_write_failure_swallowed (copy : Int → Option Int)
    (insertOk : Int → Bool) (t : Nat) (pcid pmid : Int) (db : DB) :
    (broadcast_cmd copy insertOk t pcid pmid db).2.1.failures
      = (db.channels.filter
          (fun ch => (copy ch).isNone || !insertOk ch)).length ∧
    (broadcast_cmd copy insertOk t pcid pmid db).2.1.successes
      = (db.channels.filter
          (fun ch => (copy ch).isSome && insertOk ch)).length :=
  ⟨broadcastLoop_failures copy insertOk (mkBatchId t) pcid pmid db.channels,
   broadcastLoop_successes copy insertOk (mkBatchId t) pcid pmid db.channels⟩

/-- C5: for every destination set (the registered channels) and source
message, the broadcast summary satisfies
`successes + failures = |channels|` and `total = |channels|`; if no
pre-existing row carries the allocated batch id, the member rows recorded
under it number exactly `successes`; and an empty registry yields the
summary (0, 0, 0) rather than an error. -/
theorem C5_broadcast_summary (copy : Int → Option Int)
    (insertOk : Int → Bool) (t : Nat) (pcid pmid : Int) (db : DB) :
    (broadcast_cmd copy insertOk t pcid pmid db).2.1.successes
      + (broadcast_cmd copy insertOk t pcid pmid db).2.1.failures
      = db.channels.length ∧
    (broadcast_cmd copy insertOk t pcid pmid db).2.1.total
      = db.channels.length ∧
    ((∀ r ∈ db.broadcasts, r.batch_id ≠ mkBatchId t) →
      (list_members (broadcast_cmd copy insertOk t pcid pmid db).1
          (broadcast_cmd copy insertOk t pcid pmid db).2.2).length
        = (broadcast_cmd copy insertOk t pcid pmid db).2.1.successes) ∧
    (db.channels = [] →
      (broadcast_cmd copy insertOk t pcid pmid db).2.1
        = BroadcastSummary.mk 0 0 0) := by
  refine ⟨?_, rfl, ?_, ?_⟩
  · exact broadcastLoop_success_failure copy insertOk (mkBatchId t) pcid pmid
      db.channels
  · intro hb
    have h := list_members_broadcast copy insertOk t pcid pmid db hb
    calc (list_members (broadcast_cmd copy insertOk t pcid pmid db).1
            (broadcast_cmd copy insertOk t pcid pmid db).2.2).length
        = (((broadcastLoop copy insertOk (mkBatchId t) pcid pmid
              db.channels).2.2).map
            (fun r => (r.channel_id, r.channel_message_id))).length := by
          rw [show (broadcast_cmd copy insertOk t pcid pmid db).2.2
                = mkBatchId t from rfl, h]
      _ = (broadcastLoop copy insertOk (mkBatchId t) pcid pmid
            db.channels).2.2.length := List.length_map _ _
      _ = (broadcast_cmd copy insertOk t pcid pmid db).2.1.successes :=
          broadcastLoop_rows_length copy insertOk (mkBatchId t) pcid pmid
            db.channels
  · intro h
    simp [broadcast_cmd, h, broadcastLoop]

/-- C5 witness: broadcasting (10, 20) at second 5 to a two-channel registry
where only channel 1 accepts the copy gives 1 + 1 = 2 with total 2, one
member row under batch id "5", and the empty-registry clause instantiated
at the empty store. -/
theorem C5_broadcast_summary_witness :
    (broadcast_cmd copyA insT 5 10 20 dbReg).2.1.successes
      + (broadcast_cmd copyA insT 5 10 20 dbReg).2.1.failures
      = dbReg.channels.length ∧
    (list_members (broadcast_cmd copyA insT 5 10 20 dbReg).1
        (broadcast_cmd copyA insT 5 10 20 dbReg).2.2).length
      = (broadcast_cmd copyA insT 5 10 20 dbReg).2.1.successes ∧
    (broadcast_cmd copyA insT 5 10 20 init_db).2.1
      = BroadcastSummary.mk 0 0 0 :=
  ⟨(C5_broadcast_summary copyA insT 5 10 20 dbReg).1,
   (C5_broadcast_summary copyA insT 5 10 20 dbReg).2.2.1 (by decide),
   (C5_broadcast_summary copyA insT 5 10 20 init_db).2.2.2 rfl⟩

/-- C8: a retraction request whose origin reference resolves to no batch
row returns the not-found outcome, attempts zero transport deletes, and
leaves the store untouched. -/
theorem C8_unknown_origin (del : Int → Int → Bool) (pcid pmid : Int)
    (db : DB) (h : find_batch_by_origin db pcid pmid = none) :
    delete_cmd del pcid pmid db = (db, RetractResult.notFound, []) := by
  unfold delete_cmd
  rw [h]

/-- C8 witness: retracting origin (1, 2) against the empty store. -/
theorem C8_unknown_origin_witness :
    delete_cmd delT 1 2 init_db = (init_db, RetractResult.notFound, []) :=
  C8_unknown_origin delT 1 2 init_db (by decide)

/-- C9: registration is idempotent — starting from a store whose channels
column satisfies its primary-key constraint, registering the same channel
id twice equals registering it once (the second call is a no-op, not an
error), and the resulting registry holds exactly one entry for that id. -/
theorem C9_register_idempotent (db : DB) (cid : Int)
    (h : db.channels.Nodup) :
    register_forward (register_forward db cid) cid
      = register_forward db cid ∧
    (register_forward (register_forward db cid) cid).channels.count cid
      = 1 := by
  have hid : register_forward (register_forward db cid) cid
      = register_forward db cid :=
    register_forward_of_mem _ _ (register_forward_mem_self db cid)
  refine ⟨hid, ?_⟩
  rw [hid]
  by_cases hc : cid ∈ db.channels
  · rw [register_forward_of_mem db cid hc]
    exact List.count_eq_one_of_mem h hc
  · rw [register_forward_of_not_mem db cid hc]
    rw [List.count_append]
    rw [List.count_eq_zero.mpr hc]
    simp

/-- C9 witness: registering channel 7 twice in the fresh store. -/
theorem C9_register_idempotent_witness :
    register_forward (register_forward init_db 7) 7
      = register_forward init_db 7 ∧
    (register_forward (register_forward init_db 7) 7).channels.count 7
      = 1 :=
  C9_register_idempotent init_db 7 (by decide)

/-- C10: whenever a retraction resolves a batch and reports the summary
(deleted, not found, total), every fetched member was classified into
exactly one of the two counters: deleted + not_found = total, and total is
the number of delete targets attempted. -/
theorem C10_retraction_counts (del : Int → Int → Bool) (pcid pmid : Int)
    (db : DB) (d nf tot : Nat)
    (h : (delete_cmd del pcid pmid db).2.1 = RetractResult.done d nf tot) :
    d + nf = tot ∧ tot = (delete_cmd del pcid pmid db).2.2.length := by
  cases hf : find_batch_by_origin db pcid pmid with
  | none =>
    have hn : (delete_cmd del pcid pmid db).2.1 = RetractResult.notFound := by
      unfold delete_cmd
      rw [hf]
    rw [hn] at h
    exact absurd h (by simp)
  | some bid =>
    have h2 : (delete_cmd del pcid pmid db).2.1
        = RetractResult.done (deleteLoop del (list_members db bid)).1
            (deleteLoop del (list_members db bid)).2
            (list_members db bid).length := by
      unfold delete_cmd
      rw [hf]
    have h3 : (delete_cmd del pcid pmid db).2.2 = list_members db bid := by
      unfold delete_cmd
      rw [hf]
    rw [h2] at h
    simp only [RetractResult.done.injEq] at h
    obtain ⟨ha, hb, hc⟩ := h
    subst ha; subst hb; subst hc
    exact ⟨deleteLoop_total del (list_members db bid), by rw [h3]⟩

/-- C10 witness: retracting the Scenario-A store (one member, delete
succeeds) reports 1 + 0 = 1 over 1 attempted target. -/
theorem C10_retraction_counts_witness :
    1 + 0 = 1 ∧ 1 = (delete_cmd delT 10 20 dbA).2.2.length :=
  C10_retraction_counts delT 10 20 dbA 1 0 1 (by decide)

/-- C1 counterexample: against the Scenario-A store, a first retraction of
origin (10, 20) resolves the batch and completes (1 deleted, 0 not found);
a second retraction of the same origin against the store the first call
left behind does not yield the not-found outcome — it resolves the same
batch again and re-attempts its member (0 deleted, 1 not found). -/
theorem C1_counterexample :
    (delete_cmd delT 10 20 dbA).2.1 = RetractResult.done 1 0 1 ∧
    (delete_cmd delF 10 20 (delete_cmd delT 10 20 dbA).1).2.1
        = RetractResult.done 0 1 1 ∧
    (delete_cmd delF 10 20 (delete_cmd delT 10 20 dbA).1).2.1
        ≠ RetractResult.notFound := by decide

/-- C1 (amended): `delete_cmd` performs no store write at all — the batch
is neither purged nor flagged retracted — so after any retraction the store
is unchanged, and whenever an origin reference resolves to a batch, a
second retraction with the same origin reference again resolves a batch
(never the not-found outcome) and re-attempts deletion of its members. -/
theorem C1_no_purge (del : Int → Int → Bool) (pcid pmid : Int) (db : DB) :
    (delete_cmd del pcid pmid db).1 = db ∧
    ∀ del2 bid, find_batch_by_origin db pcid pmid = some bid →
      (delete_cmd del2 pcid pmid (delete_cmd del pcid pmid db).1).2.1
        ≠ RetractResult.notFound := by
  have hdb : (delete_cmd del pcid pmid db).1 = db := by
    unfold delete_cmd
    cases find_batch_by_origin db pcid pmid <;> rfl
  refine ⟨hdb, ?_⟩
  intro del2 bid hf
  rw [hdb]
  unfold delete_cmd
  rw [hf]
  simp

/-- C1 witness: the amended statement applied to the Scenario-A store. -/
theorem C1_no_purge_witness :
    (delete_cmd delT 10 20 dbA).1 = dbA ∧
    (delete_cmd delF 10 20 (delete_cmd delT 10 20 dbA).1).2.1
      ≠ RetractResult.notFound :=
  ⟨(C1_no_purge delT 10 20 dbA).1,
   (C1_no_purge delT 10 20 dbA).2 delF "5" (by decide)⟩

/-- C3 counterexample: the store `dbC` holds two batches for origin
(10, 20) — batch "1" broadcast first, batch "2" broadcast afterwards.  The
lookup returns batch "1", the oldest, not the most recent batch "2". -/
theorem C3_counterexample :
    find_batch_by_origin dbC 10 20 = some (mkBatchId 1) ∧
    mkBatchId 1 ≠ mkBatchId 2 := by decide

/-- C3 (amended): the lookup (`SELECT ... fetchone()` with no ORDER BY,
i.e. first row in rowid order) returns the EARLIEST batch for the origin:
after two broadcasts of the same origin message, where the first broadcast
recorded at least one member row, retraction resolves the first
broadcast's batch id, not the most recent one. -/
theorem C3_returns_earliest (copy1 copy2 : Int → Option Int)
    (ins1 ins2 : Int → Bool) (t1 t2 : Nat) (pcid pmid : Int) (db : DB)
    (hor : ∀ r ∈ db.broadcasts, originMatches pcid pmid r = false)
    (hne : (broadcastLoop copy1 ins1 (mkBatchId t1) pcid pmid
        db.channels).2.2 ≠ []) :
    find_batch_by_origin
        (broadcast_cmd copy2 ins2 t2 pcid pmid
          (broadcast_cmd copy1 ins1 t1 pcid pmid db).1).1 pcid pmid
      = some (mkBatchId t1) := by
  unfold find_batch_by_origin broadcast_cmd
  simp only [List.filter_append, List.append_assoc]
  rw [List.filter_eq_nil_iff.mpr (fun r hr => by simp [hor r hr])]
  rw [broadcastLoop_filter_origin copy1 ins1 (mkBatchId t1) pcid pmid
    db.channels]
  rw [broadcastLoop_filter_origin copy2 ins2 (mkBatchId t2) pcid pmid
    db.channels]
  obtain ⟨r, rest, hr⟩ := List.exists_cons_of_ne_nil hne
  rw [hr]
  simp only [List.nil_append, List.cons_append, List.head?_cons,
    Option.map_some]
  have hm : r ∈ (broadcastLoop copy1 ins1 (mkBatchId t1) pcid pmid
      db.channels).2.2 := by
    rw [hr]; exact List.mem_cons_self r rest
  simp [(broadcastLoop_rows copy1 ins1 (mkBatchId t1) pcid pmid db.channels
    r hm).1]

/-- C3 witness: the amended statement applied to the double broadcast that
produced `dbC`. -/
theorem C3_returns_earliest_witness :
    find_batch_by_origin dbC 10 20 = some (mkBatchId 1) :=
  C3_returns_earliest copyA copyA insT insT 1 2 10 20 dbOne
    (by decide) (by decide)

/-- C6: round-trip of membership — starting from a store with no row under
the allocated batch id and no row matching the origin reference, the
delete targets that a retraction of the freshly broadcast batch attempts
are exactly the (channel, remote message id) member rows recorded for that
batch id: none skipped, none invented.  (When the broadcast recorded no
member, the retraction resolves nothing and both sides are empty.) -/
theorem C6_roundtrip (copy : Int → Option Int) (insertOk : Int → Bool)
    (del : Int → Int → Bool) (t : Nat) (pcid pmid : Int) (db : DB)
    (hb : ∀ r ∈ db.broadcasts, r.batch_id ≠ mkBatchId t)
    (hor : ∀ r ∈ db.broadcasts, originMatches pcid pmid r = false) :
    (delete_cmd del pcid pmid
        (broadcast_cmd copy insertOk t pcid pmid db).1).2.2
      = list_members (broadcast_cmd copy insertOk t pcid pmid db).1
          (broadcast_cmd copy insertOk t pcid pmid db).2.2 := by
  have hfind := find_batch_by_origin_broadcast copy insertOk t pcid pmid db hor
  have hlist := list_members_broadcast copy insertOk t pcid pmid db hb
  cases hrows : (broadcastLoop copy insertOk (mkBatchId t) pcid pmid
      db.channels).2.2 with
  | nil =>
    rw [hrows] at hfind
    simp only [List.head?_nil, Option.map_none'] at hfind
    unfold delete_cmd
    rw [hfind]
    rw [show (broadcast_cmd copy insertOk t pcid pmid db).2.2
          = mkBatchId t from rfl]
    rw [hlist, hrows]
    simp
  | cons r rest =>
    rw [hrows] at hfind
    simp only [List.head?_cons, Option.map_some'] at hfind
    have hbid : r.batch_id = mkBatchId t :=
      (broadcastLoop_rows copy insertOk (mkBatchId t) pcid pmid db.channels
        r (by rw [hrows]; exact List.mem_cons_self r rest)).1
    unfold delete_cmd
    rw [hfind, hbid]
    rfl

/-- C6 witness: broadcast of (10, 20) at second 5 to the two-channel
registry, then immediate retraction: the attempted targets equal the
recorded member rows. -/
theorem C6_roundtrip_witness :
    (delete_cmd delT 10 20
        (broadcast_cmd copyA insT 5 10 20 dbReg).1).2.2
      = list_members (broadcast_cmd copyA insT 5 10 20 dbReg).1
          (broadcast_cmd copyA insT 5 10 20 dbReg).2.2 :=
  C6_roundtrip copyA insT delT 5 10 20 dbReg (by decide) (by decide)

/-- C7 counterexample: on a registry holding only channel 1, the transport
copy to channel 1 succeeds (remote id 100) yet — because the member-row
INSERT raises inside the same `try` — the post-broadcast store holds no
member record for channel 1.  "Record written iff copy succeeded" fails in
the if direction. -/
theorem C7_counterexample :
    copyA 1 = some 100 ∧ (1 : Int) ∈ dbOne.channels ∧
    ((broadcast_cmd copyA insF 5 10 20 dbOne).1.broadcasts.filter
        (fun r => r.channel_id == 1)) = [] := by decide

/-- C7 (amended): the invariant holds in the only-if direction — every row
of the post-broadcast store is either a pre-existing row or a member
record whose transport copy succeeded with exactly the recorded remote
message id (and whose store insert succeeded); a failed copy never
produces a record. -/
theorem C7_members_from_successful_copies (copy : Int → Option Int)
    (insertOk : Int → Bool) (t : Nat) (pcid pmid : Int) (db : DB)
    (r : BroadcastRow)
    (hr : r ∈ (broadcast_cmd copy insertOk t pcid pmid db).1.broadcasts) :
    r ∈ db.broadcasts ∨
      (copy r.channel_id = some r.channel_message_id ∧
        insertOk r.channel_id = true) := by
  unfold broadcast_cmd at hr
  simp only [List.mem_append] at hr
  rcases hr with h | h
  · exact Or.inl h
  · have hrow := broadcastLoop_rows copy insertOk (mkBatchId t) pcid pmid
      db.channels r h
    exact Or.inr ⟨hrow.2.2.2.1, hrow.2.2.2.2⟩

/-- C7 witness: the member row recorded in Scenario A comes from the
successful copy to channel 1. -/
theorem C7_members_witness :
    (⟨"5", 10, 20, 1, 100⟩ : BroadcastRow) ∈ dbReg.broadcasts ∨
      (copyA 1 = some 100 ∧ insT 1 = true) :=
  C7_members_from_successful_copies copyA insT 5 10 20 dbReg
    ⟨"5", 10, 20, 1, 100⟩ (by decide)
